import Mathlib

/-!
Verification development for `website/models.py` of the OtterTune fork: the
persistence schema of a database-tuning web service. We shallowly embed the
parts of the data model the properties concern: the catalog rows
(`KnobCatalog`, `MetricCatalog`), the record rows (`Project`, `Application`,
`BenchmarkConfig`, `DBConf`, `DBMSMetrics`, `Result`), the manual
cascade-delete methods (`Project.delete`, `Application.delete`), the field
validators (`clean_fields`), and the two JSON-reshaping view helpers
(`DBConf.get_tuning_configuration`, `DBMSMetrics.get_normalized_configuration`).

Modelling conventions:
* Python `int` fields become `Int`; primary keys and foreign keys become `Nat`
  surrogate ids (a Django `ForeignKey` stores the referenced row's pk).
* A parsed JSON object (the output of `JSONUtil.loads` applied to a
  `configuration` text field) is represented as an association list from
  `String` keys to JSON values, looked up first-match like a Python `dict`.
  `JSONUtil.loads` itself lives in `website/utils.py`, outside the excerpt;
  records therefore carry their configuration already parsed.
* Python `float` arithmetic is modelled by exact rationals `ℚ`; the
  properties at stake concern which keys are produced and which value each is
  mapped to, not rounding.
* A method that can raise becomes a function into `Option`/`Except`, with an
  error value naming the Python exception (`KeyError`, `ZeroDivisionError`,
  the `ValueError` of a failed `float(·)` conversion, `ValidationError`).
* `super().clean_fields()` performs Django's per-field checks, which are not
  part of this file; each embedded `clean_fields` models only the subclass's
  own check, i.e. the behaviour given that the inherited field checks pass.
* Each `delete` override snapshots querysets and deletes row by row. A row's
  base `delete` removes that row (identified by its pk) and, because every
  `ForeignKey` in this Django 1.x file is declared without `on_delete` and so
  defaults to `CASCADE`, it also cascade-deletes the rows that reference the
  deleted row. Among the tables modelled here the one cascade with an effect
  is `Application` ← `DBMSMetrics`: `Application.delete`'s manual loops
  remove the application's `DBConf`, `Result` and `BenchmarkConfig` rows
  before `super().delete()` runs, so the base delete's collector then finds
  (and removes) exactly the `DBMSMetrics` rows of the application. In
  `Project.delete` the manual loop has already removed every application of
  the project when `super().delete()` runs, so its cascade finds nothing in
  the modelled tables and only the project row goes.
-/

namespace OtterTune

/-- A JSON / Python value as it occurs in the configuration blobs and in the
dictionaries the view helpers build: a number, or a string (the helpers insert
the literal placeholder string when `include_all` is set). -/
inductive Val where
  | num (q : ℚ)
  | str (s : String)
deriving DecidableEq

/-- A parsed JSON object: association list, first match wins on lookup. -/
abbrev Blob := List (String × Val)

/-- Python `float(v)`: succeeds on a number, fails (`ValueError`/`TypeError`)
otherwise. (Numeric strings are not modelled; no property depends on them.) -/
def pyFloat : Val → Option ℚ
  | Val.num q => some q
  | Val.str _ => none

/-- Python dict assignment `d[k] = v`: overwrite the entry in place when the
key is present, append it otherwise (insertion order is preserved, as for both
`dict` and `OrderedDict`). -/
def dictInsert (d : List (String × Val)) (k : String) (v : Val) :
    List (String × Val) :=
  if d.any (fun p => p.1 == k) then
    d.map (fun p => if p.1 == k then (k, v) else p)
  else
    d ++ [(k, v)]

deriving instance DecidableEq for Except

/-- Python exceptions the metrics view helper can raise. -/
inductive PyError where
  | keyError (k : String)
  | valueError
  | zeroDivisionError
deriving DecidableEq

/-- Modelled from the spec: `MetricType` (`website/types.py` is not part of
the excerpt); the spec speaks of counter metrics versus other metric kinds, so
the enum carries a `COUNTER` variant and the remaining kinds. Only
(in)equality with `COUNTER` matters to the code at hand. -/
inductive MetricType where
  | COUNTER
  | INFO
  | STATISTICS
deriving DecidableEq

/-- Modelled from the spec: `VarType` (`website/types.py` is not part of the
excerpt); the validator only compares against the integer variant, so the enum
carries `INTEGER` and the other JSON-able scalar kinds. -/
inductive VarType where
  | STRING
  | INTEGER
  | REAL
  | BOOL
  | ENUM
  | TIMESTAMP
deriving DecidableEq

/-- A `KnobCatalog` row: a tunable configuration parameter of a DBMS.
Fields not read by any method here (unit, category, bounds, …) are omitted. -/
structure KnobCatalog where
  dbms : Nat
  name : String
  vartype : VarType
  tunable : Bool
deriving DecidableEq

/-- A `MetricCatalog` row: a measurable runtime metric of a DBMS. -/
structure MetricCatalog where
  dbms : Nat
  name : String
  vartype : VarType
  metric_type : MetricType
deriving DecidableEq

/-- `MetricCatalog.clean_fields`: after the inherited field checks, raise
`ValidationError` when a counter-typed metric is not integer-valued. -/
def MetricCatalog.clean_fields (self : MetricCatalog) : Except String Unit :=
  if self.metric_type = MetricType.COUNTER ∧ self.vartype ≠ VarType.INTEGER then
    Except.error "Counter metrics must be integers."
  else
    Except.ok ()

/-- A `Project` row (only the pk matters to the delete logic). -/
structure Project where
  id : Nat
deriving DecidableEq

/-- An `Application` row: pk and its `project` foreign key. -/
structure Application where
  id : Nat
  project : Nat
deriving DecidableEq

/-- A `BenchmarkConfig` row: pk, `application` foreign key, and the benchmark
duration field `time` that `clean_fields` checks. -/
structure BenchmarkConfig where
  id : Nat
  application : Nat
  time : Int
deriving DecidableEq

/-- `BenchmarkConfig.clean_fields`: after the inherited field checks, raise
`ValidationError` unless the duration is positive. -/
def BenchmarkConfig.clean_fields (self : BenchmarkConfig) : Except String Unit :=
  if self.time ≤ 0 then
    Except.error "Time must be greater than 0."
  else
    Except.ok ()

/-- A `DBConf` row: pk, `application` and `dbms` foreign keys, and the stored
configuration blob (already parsed, see the module conventions). -/
structure DBConf where
  id : Nat
  application : Nat
  dbms : Nat
  configuration : Blob
deriving DecidableEq

/-- A `DBMSMetrics` row: pk, foreign keys, the stored metrics blob, and the
`execution_time` integer field. -/
structure DBMSMetrics where
  id : Nat
  application : Nat
  dbms : Nat
  execution_time : Int
  configuration : Blob
deriving DecidableEq

/-- `DBMSMetrics.clean_fields`: after the inherited field checks, raise
`ValidationError` unless the execution time is positive. -/
def DBMSMetrics.clean_fields (self : DBMSMetrics) : Except String Unit :=
  if self.execution_time ≤ 0 then
    Except.error "Execution time must be greater than 0."
  else
    Except.ok ()

/-- A `Result` row: pk and its `application` foreign key (the latency and
link fields play no role in the modelled behaviour). -/
structure Result where
  id : Nat
  application : Nat
deriving DecidableEq

/-- Whether an `Except`-valued validator raised. -/
def raised {ε α : Type} : Except ε α → Bool
  | Except.error _ => true
  | Except.ok _ => false

/-- The database tables the delete logic touches. -/
structure Db where
  projects : List Project
  applications : List Application
  dbconfs : List DBConf
  results : List Result
  benchmark_configs : List BenchmarkConfig
  dbms_metrics : List DBMSMetrics
deriving DecidableEq

/-- `Application.delete`: snapshot the `DBConf`, `Result` and
`BenchmarkConfig` rows whose `application` foreign key is this row and delete
each of them, then delete the application row itself via `super().delete()`.
The base delete cascade-deletes the remaining rows referencing the
application (`on_delete` is unspecified on every `ForeignKey`, hence
`CASCADE`): among the modelled tables these are exactly the application's
`DBMSMetrics` rows, the manual loops having already removed the others. -/
def Application.delete (a : Application) (db : Db) : Db :=
  { db with
    dbconfs := db.dbconfs.filter (fun t => t.application ≠ a.id)
    results := db.results.filter (fun r => r.application ≠ a.id)
    benchmark_configs := db.benchmark_configs.filter (fun x => x.application ≠ a.id)
    dbms_metrics := db.dbms_metrics.filter (fun x => x.application ≠ a.id)
    applications := db.applications.filter (fun x => x.id ≠ a.id) }

/-- `Project.delete`: snapshot the applications of this project, delete each
(cascading as `Application.delete` does), then delete the project row via
`super().delete()`; the latter's `CASCADE` collector finds no remaining
application of the project (the loop removed them all), so in the modelled
tables only the project row goes. -/
def Project.delete (p : Project) (db : Db) : Db :=
  let apps := db.applications.filter (fun x => x.project = p.id)
  let db1 := apps.foldl (fun d a => Application.delete a d) db
  { db1 with projects := db1.projects.filter (fun x => x.id ≠ p.id) }

/-- The loop of `DBConf.get_tuning_configuration`: walk the dbms's knob
catalog in order; a tunable knob contributes the blob's value for its name
(`KeyError`, i.e. `none`, when the name is absent from the blob); with
`include_all` a non-tunable knob contributes the placeholder. -/
def buildParams (config : Blob) (include_all : Bool) :
    List KnobCatalog → List (String × Val) → Option (List (String × Val))
  | [], params => some params
  | p :: ps, params =>
    if p.tunable then
      match config.lookup p.name with
      | some v => buildParams config include_all ps (dictInsert params p.name v)
      | none => none
    else if include_all then
      buildParams config include_all ps (dictInsert params p.name (Val.str "--"))
    else
      buildParams config include_all ps params

/-- `DBConf.get_tuning_configuration`: parse the stored configuration, filter
the knob catalog to this record's dbms, and build the name-to-value dict. -/
def DBConf.get_tuning_configuration (self : DBConf)
    (knob_catalog : List KnobCatalog) (include_all : Bool) :
    Option (List (String × Val)) :=
  buildParams self.configuration include_all
    (knob_catalog.filter (fun p => p.dbms = self.dbms)) []

/-- The loop of `DBMSMetrics.get_normalized_configuration`: walk the dbms's
metric catalog in order; a counter metric contributes
`float(config[name]) / execution_time` (raising `KeyError` on an absent name,
`ValueError` on a non-numeric value, `ZeroDivisionError` when the execution
time is zero); with `include_all` a non-counter metric contributes the
placeholder. -/
def buildNormMetrics (config : Blob) (execution_time : Int) (include_all : Bool) :
    List MetricCatalog → List (String × Val) →
    Except PyError (List (String × Val))
  | [], norm_metrics => Except.ok norm_metrics
  | m :: ms, norm_metrics =>
    if m.metric_type = MetricType.COUNTER then
      match config.lookup m.name with
      | none => Except.error (PyError.keyError m.name)
      | some v =>
        match pyFloat v with
        | none => Except.error PyError.valueError
        | some q =>
          if execution_time = 0 then
            Except.error PyError.zeroDivisionError
          else
            buildNormMetrics config execution_time include_all ms
              (dictInsert norm_metrics m.name (Val.num (q / (execution_time : ℚ))))
    else if include_all then
      buildNormMetrics config execution_time include_all ms
        (dictInsert norm_metrics m.name (Val.str "--"))
    else
      buildNormMetrics config execution_time include_all ms norm_metrics

/-- `DBMSMetrics.get_normalized_configuration`: parse the stored blob, filter
the metric catalog to this record's dbms, and build the normalized dict. -/
def DBMSMetrics.get_normalized_configuration (self : DBMSMetrics)
    (metric_catalog : List MetricCatalog) (include_all : Bool) :
    Except PyError (List (String × Val)) :=
  buildNormMetrics self.configuration self.execution_time include_all
    (metric_catalog.filter (fun m => m.dbms = self.dbms)) []

/-! ### Lemmas about the cascade deletes -/

theorem delete_dbconfs_mem (a : Application) (db : Db) (t : DBConf) :
    t ∈ (Application.delete a db).dbconfs ↔
      t ∈ db.dbconfs ∧ t.application ≠ a.id := by
  simp [Application.delete, List.mem_filter]

theorem delete_results_mem (a : Application) (db : Db) (r : Result) :
    r ∈ (Application.delete a db).results ↔
      r ∈ db.results ∧ r.application ≠ a.id := by
  simp [Application.delete, List.mem_filter]

theorem delete_benchmark_configs_mem (a : Application) (db : Db)
    (x : BenchmarkConfig) :
    x ∈ (Application.delete a db).benchmark_configs ↔
      x ∈ db.benchmark_configs ∧ x.application ≠ a.id := by
  simp [Application.delete, List.mem_filter]

theorem delete_applications_mem (a : Application) (db : Db) (x : Application) :
    x ∈ (Application.delete a db).applications ↔
      x ∈ db.applications ∧ x.id ≠ a.id := by
  simp [Application.delete, List.mem_filter]

theorem delete_dbms_metrics_mem (a : Application) (db : Db)
    (x : DBMSMetrics) :
    x ∈ (Application.delete a db).dbms_metrics ↔
      x ∈ db.dbms_metrics ∧ x.application ≠ a.id := by
  simp [Application.delete, List.mem_filter]

theorem delete_projects_eq (a : Application) (db : Db) :
    (Application.delete a db).projects = db.projects := rfl

/-- Deleting a list of applications one by one: a `DBConf` row survives iff it
was there and belongs to none of the deleted applications. -/
theorem foldl_delete_dbconfs (l : List Application) (db : Db) (t : DBConf) :
    t ∈ (l.foldl (fun d a => Application.delete a d) db).dbconfs ↔
      t ∈ db.dbconfs ∧ ∀ a ∈ l, t.application ≠ a.id := by
  induction l generalizing db with
  | nil => simp
  | cons a l ih =>
    simp only [List.foldl_cons, ih, delete_dbconfs_mem, List.mem_cons]
    constructor
    · rintro ⟨⟨h1, h2⟩, h3⟩
      exact ⟨h1, fun x hx => hx.elim (fun e => e ▸ h2) (h3 x)⟩
    · rintro ⟨h1, h2⟩
      exact ⟨⟨h1, h2 a (Or.inl rfl)⟩, fun x hx => h2 x (Or.inr hx)⟩

theorem foldl_delete_results (l : List Application) (db : Db) (r : Result) :
    r ∈ (l.foldl (fun d a => Application.delete a d) db).results ↔
      r ∈ db.results ∧ ∀ a ∈ l, r.application ≠ a.id := by
  induction l generalizing db with
  | nil => simp
  | cons a l ih =>
    simp only [List.foldl_cons, ih, delete_results_mem, List.mem_cons]
    constructor
    · rintro ⟨⟨h1, h2⟩, h3⟩
      exact ⟨h1, fun x hx => hx.elim (fun e => e ▸ h2) (h3 x)⟩
    · rintro ⟨h1, h2⟩
      exact ⟨⟨h1, h2 a (Or.inl rfl)⟩, fun x hx => h2 x (Or.inr hx)⟩

theorem foldl_delete_benchmark_configs (l : List Application) (db : Db)
    (x : BenchmarkConfig) :
    x ∈ (l.foldl (fun d a => Application.delete a d) db).benchmark_configs ↔
      x ∈ db.benchmark_configs ∧ ∀ a ∈ l, x.application ≠ a.id := by
  induction l generalizing db with
  | nil => simp
  | cons a l ih =>
    simp only [List.foldl_cons, ih, delete_benchmark_configs_mem, List.mem_cons]
    constructor
    · rintro ⟨⟨h1, h2⟩, h3⟩
      exact ⟨h1, fun y hy => hy.elim (fun e => e ▸ h2) (h3 y)⟩
    · rintro ⟨h1, h2⟩
      exact ⟨⟨h1, h2 a (Or.inl rfl)⟩, fun y hy => h2 y (Or.inr hy)⟩

theorem foldl_delete_applications (l : List Application) (db : Db)
    (x : Application) :
    x ∈ (l.foldl (fun d a => Application.delete a d) db).applications ↔
      x ∈ db.applications ∧ ∀ a ∈ l, x.id ≠ a.id := by
  induction l generalizing db with
  | nil => simp
  | cons a l ih =>
    simp only [List.foldl_cons, ih, delete_applications_mem, List.mem_cons]
    constructor
    · rintro ⟨⟨h1, h2⟩, h3⟩
      exact ⟨h1, fun y hy => hy.elim (fun e => e ▸ h2) (h3 y)⟩
    · rintro ⟨h1, h2⟩
      exact ⟨⟨h1, h2 a (Or.inl rfl)⟩, fun y hy => h2 y (Or.inr hy)⟩

theorem foldl_delete_projects (l : List Application) (db : Db) :
    (l.foldl (fun d a => Application.delete a d) db).projects = db.projects := by
  induction l generalizing db with
  | nil => rfl
  | cons a l ih => simpa [List.foldl_cons] using ih (Application.delete a db)

/-! ### Concrete rows for counterexamples and instantiations -/

/-- An application with pk 1 in project 1. -/
def app1 : Application := ⟨1, 1⟩

/-- A `DBMSMetrics` row belonging to `app1`. -/
def metricsOfApp1 : DBMSMetrics := ⟨1, 1, 1, 1, []⟩

/-- A database holding `app1` and its metrics row. -/
def dbWithMetrics : Db := ⟨[], [app1], [], [], [], [metricsOfApp1]⟩

/-! ### Claim theorems: cascade deletes -/

/-- C1: `Application.delete a` removes every `DBConf`, `DBMSMetrics` and
`Result` row whose `application` foreign key is `a`, as well as every
`BenchmarkConfig` of `a` (the manual loops delete the configs, results and
benchmark configs; the base delete's `CASCADE` removes the metrics rows),
before removing `a` itself. -/
theorem application_delete_effect (a : Application) (db : Db) :
    (∀ t : DBConf, t ∈ db.dbconfs → t.application = a.id →
        t ∉ (Application.delete a db).dbconfs) ∧
    (∀ x : DBMSMetrics, x ∈ db.dbms_metrics → x.application = a.id →
        x ∉ (Application.delete a db).dbms_metrics) ∧
    (∀ r : Result, r ∈ db.results → r.application = a.id →
        r ∉ (Application.delete a db).results) ∧
    (∀ x : BenchmarkConfig, x ∈ db.benchmark_configs → x.application = a.id →
        x ∉ (Application.delete a db).benchmark_configs) ∧
    (∀ x : Application, x ∈ db.applications → x.id = a.id →
        x ∉ (Application.delete a db).applications) := by
  refine ⟨?_, ?_, ?_, ?_, ?_⟩
  · intro t _ ht hmem
    exact ((delete_dbconfs_mem a db t).1 hmem).2 ht
  · intro x _ hx hmem
    exact ((delete_dbms_metrics_mem a db x).1 hmem).2 hx
  · intro r _ hr hmem
    exact ((delete_results_mem a db r).1 hmem).2 hr
  · intro x _ hx hmem
    exact ((delete_benchmark_configs_mem a db x).1 hmem).2 hx
  · intro x _ hx hmem
    exact ((delete_applications_mem a db x).1 hmem).2 hx

/-- C1 instantiated: deleting `app1` removes its `DBMSMetrics` row (through
the base delete's cascade) and `app1` itself. -/
theorem application_delete_effect_inst :
    metricsOfApp1 ∉ (Application.delete app1 dbWithMetrics).dbms_metrics ∧
    app1 ∉ (Application.delete app1 dbWithMetrics).applications :=
  ⟨(application_delete_effect app1 dbWithMetrics).2.1 metricsOfApp1
      (by decide) rfl,
    (application_delete_effect app1 dbWithMetrics).2.2.2.2 app1
      (by decide) rfl⟩

/-- C2: `Project.delete p` removes every application of project `p`, removes
transitively every `DBConf`, `Result` and `BenchmarkConfig` row of each such
application, and removes `p` itself (and nothing else from the projects
table). -/
theorem project_delete_cascades (p : Project) (db : Db) :
    (∀ x : Application, x ∈ db.applications → x.project = p.id →
        x ∉ (Project.delete p db).applications) ∧
    (∀ a : Application, a ∈ db.applications → a.project = p.id →
        (∀ t : DBConf, t ∈ (Project.delete p db).dbconfs →
            t.application ≠ a.id) ∧
        (∀ r : Result, r ∈ (Project.delete p db).results →
            r.application ≠ a.id) ∧
        (∀ x : BenchmarkConfig, x ∈ (Project.delete p db).benchmark_configs →
            x.application ≠ a.id)) ∧
    (∀ q : Project, q ∈ (Project.delete p db).projects ↔
        q ∈ db.projects ∧ q.id ≠ p.id) := by
  refine ⟨?_, ?_, ?_⟩
  · intro x hx hproj hmem
    have h := (foldl_delete_applications _ db x).1 hmem
    exact h.2 x (List.mem_filter.2 ⟨hx, by simpa using hproj⟩) rfl
  · intro a ha hproj
    have hafilt : a ∈ db.applications.filter (fun x => x.project = p.id) :=
      List.mem_filter.2 ⟨ha, by simpa using hproj⟩
    refine ⟨fun t ht => ?_, fun r hr => ?_, fun x hx => ?_⟩
    · exact ((foldl_delete_dbconfs _ db t).1 ht).2 a hafilt
    · exact ((foldl_delete_results _ db r).1 hr).2 a hafilt
    · exact ((foldl_delete_benchmark_configs _ db x).1 hx).2 a hafilt
  · intro q
    show q ∈ List.filter _ _ ↔ _
    rw [List.mem_filter, foldl_delete_projects]
    simp

/-- A project with pk 1, together with one application and its child rows,
used to instantiate `project_delete_cascades`. -/
def proj1 : Project := ⟨1⟩

/-- A `DBConf` row belonging to `app1`. -/
def confOfApp1 : DBConf := ⟨1, 1, 1, []⟩

/-- A database holding `proj1`, `app1` and a config row of `app1`. -/
def dbOfProj1 : Db := ⟨[proj1], [app1], [confOfApp1], [], [], []⟩

/-- C2 instantiated: deleting `proj1` removes `app1` and its config row. -/
theorem project_delete_cascades_inst :
    app1 ∉ (Project.delete proj1 dbOfProj1).applications ∧
    confOfApp1 ∉ (Project.delete proj1 dbOfProj1).dbconfs :=
  ⟨(project_delete_cascades proj1 dbOfProj1).1 app1 (by decide) rfl,
    fun h =>
      ((project_delete_cascades proj1 dbOfProj1).2.1 app1 (by decide) rfl).1
        confOfApp1 h rfl⟩

/-! ### Claim theorems: field validators -/

/-- C5: `MetricCatalog.clean_fields` raises `ValidationError` exactly when the
metric is counter-typed but not integer-valued. -/
theorem metric_catalog_counter_integer_check (r : MetricCatalog) :
    raised r.clean_fields = true ↔
      (r.metric_type = MetricType.COUNTER ∧ r.vartype ≠ VarType.INTEGER) := by
  by_cases h : r.metric_type = MetricType.COUNTER ∧ r.vartype ≠ VarType.INTEGER <;>
    simp [MetricCatalog.clean_fields, raised, h]

/-- C6: `DBMSMetrics.clean_fields` raises `ValidationError` exactly when the
execution time is not positive. -/
theorem dbms_metrics_execution_time_check (self : DBMSMetrics) :
    raised self.clean_fields = true ↔ self.execution_time ≤ 0 := by
  by_cases h : self.execution_time ≤ 0 <;>
    simp [DBMSMetrics.clean_fields, raised, h]

/-- C7: `BenchmarkConfig.clean_fields` raises `ValidationError` exactly when
the benchmark duration `time` is not positive. -/
theorem benchmark_config_time_check (self : BenchmarkConfig) :
    raised self.clean_fields = true ↔ self.time ≤ 0 := by
  by_cases h : self.time ≤ 0 <;>
    simp [BenchmarkConfig.clean_fields, raised, h]

/-! ### Lemmas about the view helpers -/

/-- The entry a single knob-catalog row contributes to the dict built by
`get_tuning_configuration` (when the build succeeds). -/
def knobEntry (config : Blob) (include_all : Bool) (p : KnobCatalog) :
    Option (String × Val) :=
  if p.tunable then (config.lookup p.name).map (fun v => (p.name, v))
  else if include_all then some (p.name, Val.str "--")
  else none

/-- The entry a single metric-catalog row contributes to the dict built by
`get_normalized_configuration` (when the build succeeds). -/
def metricEntry (config : Blob) (execution_time : Int) (include_all : Bool)
    (m : MetricCatalog) : Option (String × Val) :=
  if m.metric_type = MetricType.COUNTER then
    ((config.lookup m.name).bind pyFloat).map
      (fun q => (m.name, Val.num (q / (execution_time : ℚ))))
  else if include_all then some (m.name, Val.str "--")
  else none

theorem knobEntry_key (config : Blob) (b : Bool) (p : KnobCatalog)
    (e : String × Val) (h : knobEntry config b p = some e) : e.1 = p.name := by
  unfold knobEntry at h
  split at h
  · rcases Option.map_eq_some'.1 h with ⟨v, _, rfl⟩
    rfl
  · split at h
    · cases h
      rfl
    · cases h

theorem metricEntry_key (config : Blob) (et : Int) (b : Bool)
    (m : MetricCatalog) (e : String × Val)
    (h : metricEntry config et b m = some e) : e.1 = m.name := by
  unfold metricEntry at h
  split at h
  · rcases Option.map_eq_some'.1 h with ⟨q, _, rfl⟩
    rfl
  · split at h
    · cases h
      rfl
    · cases h

theorem dictInsert_of_key_not_mem (d : List (String × Val)) (k : String)
    (v : Val) (h : ∀ e ∈ d, e.1 ≠ k) : dictInsert d k v = d ++ [(k, v)] := by
  unfold dictInsert
  rw [if_neg]
  simp only [List.any_eq_true, beq_iff_eq, not_exists, not_and]
  exact fun e he => h e he

/-- Closed form of the `get_tuning_configuration` loop: when the names of the
catalog rows are distinct, disjoint from the keys accumulated so far, and
every tunable name is present in the blob, the loop appends one entry per
contributing row. -/
theorem buildParams_eq (config : Blob) (b : Bool) :
    ∀ (cat : List KnobCatalog) (acc : List (String × Val)),
    (cat.map KnobCatalog.name).Nodup →
    (∀ e ∈ acc, ∀ p ∈ cat, e.1 ≠ p.name) →
    (∀ p ∈ cat, p.tunable = true → (config.lookup p.name).isSome) →
    buildParams config b cat acc =
      some (acc ++ cat.filterMap (knobEntry config b))
  | [], acc, _, _, _ => by simp [buildParams]
  | p :: ps, acc, hnd, hdisj, hpres => by
    have hnd' : (ps.map KnobCatalog.name).Nodup := (List.nodup_cons.1 hnd).2
    have hpn : p.name ∉ ps.map KnobCatalog.name := (List.nodup_cons.1 hnd).1
    by_cases hp : p.tunable = true
    · rcases Option.isSome_iff_exists.1
        (hpres p (List.mem_cons_self p ps) hp) with ⟨v, hv⟩
      have hins : dictInsert acc p.name v = acc ++ [(p.name, v)] :=
        dictInsert_of_key_not_mem acc p.name v
          (fun e he => hdisj e he p (List.mem_cons_self p ps))
      have hdisj' : ∀ e ∈ acc ++ [(p.name, v)], ∀ q ∈ ps, e.1 ≠ q.name := by
        intro e he q hq
        rcases List.mem_append.1 he with he | he
        · exact hdisj e he q (List.mem_cons_of_mem p hq)
        · have : e = (p.name, v) := by simpa using he
          subst this
          intro hcontra
          have hpq : p.name = q.name := hcontra
          exact hpn (hpq ▸ List.mem_map_of_mem KnobCatalog.name hq)
      have ih := buildParams_eq config b ps (acc ++ [(p.name, v)]) hnd' hdisj'
        (fun q hq hqt => hpres q (List.mem_cons_of_mem p hq) hqt)
      have hentry : knobEntry config b p = some (p.name, v) := by
        simp [knobEntry, hp, hv]
      simp only [buildParams, hp, if_true, hv, hins, ih, List.filterMap_cons,
        hentry, List.append_assoc, List.singleton_append]
    · have hbp : p.tunable = false := by simpa using hp
      by_cases hb : b = true
      · subst hb
        have hins : dictInsert acc p.name (Val.str "--") =
            acc ++ [(p.name, Val.str "--")] :=
          dictInsert_of_key_not_mem acc p.name (Val.str "--")
            (fun e he => hdisj e he p (List.mem_cons_self p ps))
        have hdisj' : ∀ e ∈ acc ++ [(p.name, Val.str "--")],
            ∀ q ∈ ps, e.1 ≠ q.name := by
          intro e he q hq
          rcases List.mem_append.1 he with he | he
          · exact hdisj e he q (List.mem_cons_of_mem p hq)
          · have : e = (p.name, Val.str "--") := by simpa using he
            subst this
            intro hcontra
            have hpq : p.name = q.name := hcontra
            exact hpn (hpq ▸ List.mem_map_of_mem KnobCatalog.name hq)
        have ih := buildParams_eq config true ps (acc ++ [(p.name, Val.str "--")])
          hnd' hdisj' (fun q hq hqt => hpres q (List.mem_cons_of_mem p hq) hqt)
        have hentry : knobEntry config true p = some (p.name, Val.str "--") := by
          simp [knobEntry, hbp]
        simp only [buildParams, hbp, Bool.false_eq_true, if_false, if_true,
          hins, ih, List.filterMap_cons, hentry, List.append_assoc,
          List.singleton_append]
      · have hbf : b = false := by simpa using hb
        subst hbf
        have ih := buildParams_eq config false ps acc hnd'
          (fun e he q hq => hdisj e he q (List.mem_cons_of_mem p hq))
          (fun q hq hqt => hpres q (List.mem_cons_of_mem p hq) hqt)
        have hentry : knobEntry config false p = none := by
          simp [knobEntry, hbp]
        simp only [buildParams, hbp, Bool.false_eq_true, if_false, ih,
          List.filterMap_cons, hentry]

/-- Closed form of the `get_normalized_configuration` loop: when the metric
names are distinct and disjoint from the accumulated keys, every counter
metric's stored value is present and numeric, and the execution time is
nonzero, the loop appends one entry per contributing row. -/
theorem buildNormMetrics_eq (config : Blob) (et : Int) (b : Bool)
    (het : et ≠ 0) :
    ∀ (cat : List MetricCatalog) (acc : List (String × Val)),
    (cat.map MetricCatalog.name).Nodup →
    (∀ e ∈ acc, ∀ m ∈ cat, e.1 ≠ m.name) →
    (∀ m ∈ cat, m.metric_type = MetricType.COUNTER →
      ((config.lookup m.name).bind pyFloat).isSome) →
    buildNormMetrics config et b cat acc =
      Except.ok (acc ++ cat.filterMap (metricEntry config et b))
  | [], acc, _, _, _ => by simp [buildNormMetrics]
  | m :: ms, acc, hnd, hdisj, hpres => by
    have hnd' : (ms.map MetricCatalog.name).Nodup := (List.nodup_cons.1 hnd).2
    have hmn : m.name ∉ ms.map MetricCatalog.name := (List.nodup_cons.1 hnd).1
    by_cases hm : m.metric_type = MetricType.COUNTER
    · rcases Option.isSome_iff_exists.1
        (hpres m (List.mem_cons_self m ms) hm) with ⟨q, hq⟩
      rcases Option.bind_eq_some.1 hq with ⟨v, hv, hfv⟩
      have hins : dictInsert acc m.name (Val.num (q / (et : ℚ))) =
          acc ++ [(m.name, Val.num (q / (et : ℚ)))] :=
        dictInsert_of_key_not_mem acc m.name _
          (fun e he => hdisj e he m (List.mem_cons_self m ms))
      have hdisj' : ∀ e ∈ acc ++ [(m.name, Val.num (q / (et : ℚ)))],
          ∀ x ∈ ms, e.1 ≠ x.name := by
        intro e he x hx
        rcases List.mem_append.1 he with he | he
        · exact hdisj e he x (List.mem_cons_of_mem m hx)
        · have : e = (m.name, Val.num (q / (et : ℚ))) := by simpa using he
          subst this
          intro hcontra
          have hmx : m.name = x.name := hcontra
          exact hmn (hmx ▸ List.mem_map_of_mem MetricCatalog.name hx)
      have ih := buildNormMetrics_eq config et b het ms
        (acc ++ [(m.name, Val.num (q / (et : ℚ)))]) hnd' hdisj'
        (fun x hx hxc => hpres x (List.mem_cons_of_mem m hx) hxc)
      have hentry : metricEntry config et b m =
          some (m.name, Val.num (q / (et : ℚ))) := by
        simp [metricEntry, hm, hq]
      simp only [buildNormMetrics, hm, if_true, hv, hfv, het, ite_false,
        hins, ih, List.filterMap_cons, hentry, List.append_assoc,
        List.singleton_append]
    · by_cases hb : b = true
      · subst hb
        have hins : dictInsert acc m.name (Val.str "--") =
            acc ++ [(m.name, Val.str "--")] :=
          dictInsert_of_key_not_mem acc m.name _
            (fun e he => hdisj e he m (List.mem_cons_self m ms))
        have hdisj' : ∀ e ∈ acc ++ [(m.name, Val.str "--")],
            ∀ x ∈ ms, e.1 ≠ x.name := by
          intro e he x hx
          rcases List.mem_append.1 he with he | he
          · exact hdisj e he x (List.mem_cons_of_mem m hx)
          · have : e = (m.name, Val.str "--") := by simpa using he
            subst this
            intro hcontra
            have hmx : m.name = x.name := hcontra
            exact hmn (hmx ▸ List.mem_map_of_mem MetricCatalog.name hx)
        have ih := buildNormMetrics_eq config et true het ms
          (acc ++ [(m.name, Val.str "--")]) hnd' hdisj'
          (fun x hx hxc => hpres x (List.mem_cons_of_mem m hx) hxc)
        have hentry : metricEntry config et true m =
            some (m.name, Val.str "--") := by
          simp [metricEntry, hm]
        simp only [buildNormMetrics, hm, if_false, if_true, hins, ih,
          List.filterMap_cons, hentry, List.append_assoc,
          List.singleton_append]
      · have hbf : b = false := by simpa using hb
        subst hbf
        have ih := buildNormMetrics_eq config et false het ms acc hnd'
          (fun e he x hx => hdisj e he x (List.mem_cons_of_mem m hx))
          (fun x hx hxc => hpres x (List.mem_cons_of_mem m hx) hxc)
        have hentry : metricEntry config et false m = none := by
          simp [metricEntry, hm]
        simp only [buildNormMetrics, hm, if_false, Bool.false_eq_true, ih,
          List.filterMap_cons, hentry]

theorem knobEntry_false_iff (config : Blob) (p : KnobCatalog) (k : String)
    (v : Val) :
    knobEntry config false p = some (k, v) ↔
      p.tunable = true ∧ p.name = k ∧ config.lookup k = some v := by
  unfold knobEntry
  by_cases hp : p.tunable = true
  · simp only [hp, if_true, Option.map_eq_some', true_and]
    constructor
    · rintro ⟨v', hv', he⟩
      cases he
      exact ⟨rfl, hv'⟩
    · rintro ⟨hk, hv⟩
      subst hk
      exact ⟨v, hv, rfl⟩
  · simp [hp]

theorem metricEntry_false_iff (config : Blob) (et : Int) (m : MetricCatalog)
    (k : String) (v : Val) :
    metricEntry config et false m = some (k, v) ↔
      m.metric_type = MetricType.COUNTER ∧ m.name = k ∧
        ∃ q : ℚ, (config.lookup k).bind pyFloat = some q ∧
          v = Val.num (q / (et : ℚ)) := by
  unfold metricEntry
  by_cases hm : m.metric_type = MetricType.COUNTER
  · simp only [hm, if_true, Option.map_eq_some', true_and]
    constructor
    · rintro ⟨q, hq, he⟩
      cases he
      exact ⟨rfl, q, hq, rfl⟩
    · rintro ⟨hk, q, hq, hv⟩
      subst hk
      subst hv
      exact ⟨q, hq, rfl⟩
  · simp [hm]

/-! ### Claim theorems: the view helpers -/

/-- C3: with `include_all = False`, `get_tuning_configuration` returns a dict
whose entries are exactly one per tunable knob of the record's dbms, each
mapped to that knob's value in the stored configuration blob (assuming the
catalog names for this dbms are distinct and each tunable name is present in
the blob). -/
theorem get_tuning_configuration_tunable_view (self : DBConf)
    (knob_catalog : List KnobCatalog)
    (hnd : ((knob_catalog.filter (fun p => p.dbms = self.dbms)).map
      KnobCatalog.name).Nodup)
    (hpres : ∀ p ∈ knob_catalog.filter (fun p => p.dbms = self.dbms),
        p.tunable = true → (self.configuration.lookup p.name).isSome) :
    ∃ out, self.get_tuning_configuration knob_catalog false = some out ∧
      ∀ k v, ((k, v) ∈ out ↔
        ∃ p ∈ knob_catalog.filter (fun p => p.dbms = self.dbms),
          p.tunable = true ∧ p.name = k ∧
            self.configuration.lookup k = some v) := by
  have h := buildParams_eq self.configuration false
    (knob_catalog.filter (fun p => p.dbms = self.dbms)) [] hnd (by simp) hpres
  simp only [List.nil_append] at h
  refine ⟨_, h, ?_⟩
  intro k v
  rw [List.mem_filterMap]
  constructor
  · rintro ⟨p, hp, he⟩
    rcases (knobEntry_false_iff _ p k v).1 he with ⟨h1, h2, h3⟩
    exact ⟨p, hp, h1, h2, h3⟩
  · rintro ⟨p, hp, h1, h2, h3⟩
    exact ⟨p, hp, (knobEntry_false_iff _ p k v).2 ⟨h1, h2, h3⟩⟩

/-- A tunable knob and a non-tunable knob of dbms 1. -/
def knobA : KnobCatalog := ⟨1, "ka", VarType.INTEGER, true⟩

def knobB : KnobCatalog := ⟨1, "kb", VarType.INTEGER, false⟩

/-- A `DBConf` of dbms 1 whose blob stores a value for `knobA`. -/
def conf1 : DBConf := ⟨1, 1, 1, [("ka", Val.num 7)]⟩

/-- C3 instantiated at a concrete record and catalog. -/
theorem get_tuning_configuration_tunable_view_inst :
    ∃ out, conf1.get_tuning_configuration [knobA, knobB] false = some out ∧
      ∀ k v, ((k, v) ∈ out ↔
        ∃ p ∈ [knobA, knobB].filter (fun p => p.dbms = conf1.dbms),
          p.tunable = true ∧ p.name = k ∧
            conf1.configuration.lookup k = some v) :=
  get_tuning_configuration_tunable_view conf1 [knobA, knobB]
    (by decide) (by decide)

/-- C4: with `include_all = False`, `get_normalized_configuration` returns a
dict whose entries are exactly one per counter metric of the record's dbms,
each mapped to the stored value divided by the record's execution time
(assuming the catalog names for this dbms are distinct, each counter value is
present and numeric, and the execution time is nonzero). -/
theorem get_normalized_configuration_counter_view (self : DBMSMetrics)
    (metric_catalog : List MetricCatalog)
    (hnd : ((metric_catalog.filter (fun m => m.dbms = self.dbms)).map
      MetricCatalog.name).Nodup)
    (hpres : ∀ m ∈ metric_catalog.filter (fun m => m.dbms = self.dbms),
        m.metric_type = MetricType.COUNTER →
          ((self.configuration.lookup m.name).bind pyFloat).isSome)
    (het : self.execution_time ≠ 0) :
    ∃ out, self.get_normalized_configuration metric_catalog false =
        Except.ok out ∧
      ∀ k v, ((k, v) ∈ out ↔
        ∃ m ∈ metric_catalog.filter (fun m => m.dbms = self.dbms),
          m.metric_type = MetricType.COUNTER ∧ m.name = k ∧
            ∃ q : ℚ, (self.configuration.lookup k).bind pyFloat = some q ∧
              v = Val.num (q / (self.execution_time : ℚ))) := by
  have h := buildNormMetrics_eq self.configuration self.execution_time false
    het (metric_catalog.filter (fun m => m.dbms = self.dbms)) [] hnd
    (by simp) hpres
  simp only [List.nil_append] at h
  refine ⟨_, h, ?_⟩
  intro k v
  rw [List.mem_filterMap]
  constructor
  · rintro ⟨m, hm, he⟩
    rcases (metricEntry_false_iff _ _ m k v).1 he with ⟨h1, h2, h3⟩
    exact ⟨m, hm, h1, h2, h3⟩
  · rintro ⟨m, hm, h1, h2, h3⟩
    exact ⟨m, hm, (metricEntry_false_iff _ _ m k v).2 ⟨h1, h2, h3⟩⟩

/-- A counter metric and a non-counter metric of dbms 1. -/
def metricA : MetricCatalog := ⟨1, "ma", VarType.INTEGER, MetricType.COUNTER⟩

def metricB : MetricCatalog := ⟨1, "mb", VarType.STRING, MetricType.INFO⟩

/-- A `DBMSMetrics` record of dbms 1 with execution time 2 whose blob stores
a numeric value for `metricA`. -/
def metrics1 : DBMSMetrics := ⟨1, 1, 1, 2, [("ma", Val.num 10)]⟩

/-- C4 instantiated at a concrete record and catalog. -/
theorem get_normalized_configuration_counter_view_inst :
    ∃ out, metrics1.get_normalized_configuration [metricA, metricB] false =
        Except.ok out ∧
      ∀ k v, ((k, v) ∈ out ↔
        ∃ m ∈ [metricA, metricB].filter (fun m => m.dbms = metrics1.dbms),
          m.metric_type = MetricType.COUNTER ∧ m.name = k ∧
            ∃ q : ℚ, (metrics1.configuration.lookup k).bind pyFloat = some q ∧
              v = Val.num (q / (metrics1.execution_time : ℚ))) :=
  get_normalized_configuration_counter_view metrics1 [metricA, metricB]
    (by decide) (by decide) (by decide)

/-- In a catalog whose names are distinct, an entry keyed by the name of a
catalog row is in the built dict exactly when that row contributes it. -/
theorem mem_filterMap_key_iff {α : Type} (f : α → Option (String × Val))
    (nm : α → String) (hkey : ∀ a e, f a = some e → e.1 = nm a)
    (cat : List α) (hnd : (cat.map nm).Nodup) (p : α) (hp : p ∈ cat)
    (v : Val) : ((nm p, v) ∈ cat.filterMap f ↔ f p = some (nm p, v)) := by
  rw [List.mem_filterMap]
  constructor
  · rintro ⟨q, hq, hfq⟩
    have hnmq : nm p = nm q := hkey q _ hfq
    have hqp : q = p := List.inj_on_of_nodup_map hnd hq hp hnmq.symm
    subst hqp
    exact hfq
  · intro h
    exact ⟨p, hp, h⟩

theorem knobEntry_true_of_tunable (config : Blob) (p : KnobCatalog)
    (hp : p.tunable = true) :
    knobEntry config true p = knobEntry config false p := by
  simp [knobEntry, hp]

theorem metricEntry_true_of_counter (config : Blob) (et : Int)
    (m : MetricCatalog) (hm : m.metric_type = MetricType.COUNTER) :
    metricEntry config et true m = metricEntry config et false m := by
  simp [metricEntry, hm]

/-- C8: with `include_all = True` each view helper maps every non-matching
catalog entry of the record's dbms (non-tunable knob / non-counter metric) to
the placeholder string, which the `include_all = False` call omits, and the
flag does not change the entries of matching catalog items (same
well-formedness assumptions as for the `include_all = False` views). -/
theorem include_all_placeholder_entries (self : DBConf) (selfM : DBMSMetrics)
    (kc : List KnobCatalog) (mc : List MetricCatalog)
    (hndK : ((kc.filter (fun p => p.dbms = self.dbms)).map
      KnobCatalog.name).Nodup)
    (hpresK : ∀ p ∈ kc.filter (fun p => p.dbms = self.dbms),
        p.tunable = true → (self.configuration.lookup p.name).isSome)
    (hndM : ((mc.filter (fun m => m.dbms = selfM.dbms)).map
      MetricCatalog.name).Nodup)
    (hpresM : ∀ m ∈ mc.filter (fun m => m.dbms = selfM.dbms),
        m.metric_type = MetricType.COUNTER →
          ((selfM.configuration.lookup m.name).bind pyFloat).isSome)
    (het : selfM.execution_time ≠ 0) :
    (∃ m0 m1, self.get_tuning_configuration kc false = some m0 ∧
      self.get_tuning_configuration kc true = some m1 ∧
      (∀ p ∈ kc.filter (fun p => p.dbms = self.dbms), p.tunable = false →
        ((p.name, Val.str "--") ∈ m1 ∧ ∀ v, (p.name, v) ∉ m0)) ∧
      (∀ p ∈ kc.filter (fun p => p.dbms = self.dbms), p.tunable = true →
        ∀ v, ((p.name, v) ∈ m1 ↔ (p.name, v) ∈ m0))) ∧
    (∃ n0 n1, selfM.get_normalized_configuration mc false = Except.ok n0 ∧
      selfM.get_normalized_configuration mc true = Except.ok n1 ∧
      (∀ m ∈ mc.filter (fun m => m.dbms = selfM.dbms),
        m.metric_type ≠ MetricType.COUNTER →
        ((m.name, Val.str "--") ∈ n1 ∧ ∀ v, (m.name, v) ∉ n0)) ∧
      (∀ m ∈ mc.filter (fun m => m.dbms = selfM.dbms),
        m.metric_type = MetricType.COUNTER →
        ∀ v, ((m.name, v) ∈ n1 ↔ (m.name, v) ∈ n0))) := by
  constructor
  · have h0 := buildParams_eq self.configuration false
      (kc.filter (fun p => p.dbms = self.dbms)) [] hndK (by simp) hpresK
    have h1 := buildParams_eq self.configuration true
      (kc.filter (fun p => p.dbms = self.dbms)) [] hndK (by simp) hpresK
    simp only [List.nil_append] at h0 h1
    refine ⟨_, _, h0, h1, ?_, ?_⟩
    · intro p hp hpf
      constructor
      · exact List.mem_filterMap.2 ⟨p, hp, by simp [knobEntry, hpf]⟩
      · intro v hv
        have := (mem_filterMap_key_iff (knobEntry self.configuration false)
          KnobCatalog.name (fun a e => knobEntry_key _ _ a e) _ hndK p hp v).1 hv
        rcases (knobEntry_false_iff _ p p.name v).1 this with ⟨ht, _, _⟩
        rw [hpf] at ht
        cases ht
    · intro p hp hpt v
      rw [mem_filterMap_key_iff (knobEntry self.configuration true)
          KnobCatalog.name (fun a e => knobEntry_key _ _ a e) _ hndK p hp v,
        mem_filterMap_key_iff (knobEntry self.configuration false)
          KnobCatalog.name (fun a e => knobEntry_key _ _ a e) _ hndK p hp v,
        knobEntry_true_of_tunable self.configuration p hpt]
  · have h0 := buildNormMetrics_eq selfM.configuration selfM.execution_time
      false het (mc.filter (fun m => m.dbms = selfM.dbms)) [] hndM
      (by simp) hpresM
    have h1 := buildNormMetrics_eq selfM.configuration selfM.execution_time
      true het (mc.filter (fun m => m.dbms = selfM.dbms)) [] hndM
      (by simp) hpresM
    simp only [List.nil_append] at h0 h1
    refine ⟨_, _, h0, h1, ?_, ?_⟩
    · intro m hm hmne
      constructor
      · exact List.mem_filterMap.2 ⟨m, hm, by simp [metricEntry, hmne]⟩
      · intro v hv
        have := (mem_filterMap_key_iff
          (metricEntry selfM.configuration selfM.execution_time false)
          MetricCatalog.name (fun a e => metricEntry_key _ _ _ a e) _ hndM
          m hm v).1 hv
        rcases (metricEntry_false_iff _ _ m m.name v).1 this with ⟨hc, _, _⟩
        exact hmne hc
    · intro m hm hmc v
      rw [mem_filterMap_key_iff
          (metricEntry selfM.configuration selfM.execution_time true)
          MetricCatalog.name (fun a e => metricEntry_key _ _ _ a e) _ hndM
          m hm v,
        mem_filterMap_key_iff
          (metricEntry selfM.configuration selfM.execution_time false)
          MetricCatalog.name (fun a e => metricEntry_key _ _ _ a e) _ hndM
          m hm v,
        metricEntry_true_of_counter selfM.configuration selfM.execution_time
          m hmc]

/-- C8 instantiated at concrete records and catalogs. -/
theorem include_all_placeholder_entries_inst :
    (∃ m0 m1, conf1.get_tuning_configuration [knobA, knobB] false = some m0 ∧
      conf1.get_tuning_configuration [knobA, knobB] true = some m1 ∧
      (∀ p ∈ [knobA, knobB].filter (fun p => p.dbms = conf1.dbms),
        p.tunable = false →
        ((p.name, Val.str "--") ∈ m1 ∧ ∀ v, (p.name, v) ∉ m0)) ∧
      (∀ p ∈ [knobA, knobB].filter (fun p => p.dbms = conf1.dbms),
        p.tunable = true →
        ∀ v, ((p.name, v) ∈ m1 ↔ (p.name, v) ∈ m0))) ∧
    (∃ n0 n1, metrics1.get_normalized_configuration [metricA, metricB] false =
        Except.ok n0 ∧
      metrics1.get_normalized_configuration [metricA, metricB] true =
        Except.ok n1 ∧
      (∀ m ∈ [metricA, metricB].filter (fun m => m.dbms = metrics1.dbms),
        m.metric_type ≠ MetricType.COUNTER →
        ((m.name, Val.str "--") ∈ n1 ∧ ∀ v, (m.name, v) ∉ n0)) ∧
      (∀ m ∈ [metricA, metricB].filter (fun m => m.dbms = metrics1.dbms),
        m.metric_type = MetricType.COUNTER →
        ∀ v, ((m.name, v) ∈ n1 ↔ (m.name, v) ∈ n0))) :=
  include_all_placeholder_entries conf1 metrics1 [knobA, knobB]
    [metricA, metricB] (by decide) (by decide) (by decide) (by decide)
    (by decide)

/-! ### Partiality of the view helpers in the stored blob -/

/-- Whether a metrics-view outcome is a `KeyError`. -/
def isKeyError {α : Type} : Except PyError α → Bool
  | Except.error (PyError.keyError _) => true
  | _ => false

/-- When every tunable knob name is present in the blob, the knob-view loop
succeeds. -/
theorem buildParams_isSome (config : Blob) (b : Bool) :
    ∀ (cat : List KnobCatalog) (acc : List (String × Val)),
    (∀ p ∈ cat, p.tunable = true → (config.lookup p.name).isSome) →
    (buildParams config b cat acc).isSome
  | [], acc, _ => by simp [buildParams]
  | p :: ps, acc, h => by
    by_cases hp : p.tunable = true
    · rcases Option.isSome_iff_exists.1
        (h p (List.mem_cons_self p ps) hp) with ⟨v, hv⟩
      simp only [buildParams, hp, if_true, hv]
      exact buildParams_isSome config b ps _
        (fun q hq => h q (List.mem_cons_of_mem p hq))
    · have hbp : p.tunable = false := by simpa using hp
      by_cases hb : b = true
      · subst hb
        simp only [buildParams, hbp, Bool.false_eq_true, if_false, if_true]
        exact buildParams_isSome config true ps _
          (fun q hq => h q (List.mem_cons_of_mem p hq))
      · have hbf : b = false := by simpa using hb
        subst hbf
        simp only [buildParams, hbp, Bool.false_eq_true, if_false]
        exact buildParams_isSome config false ps acc
          (fun q hq => h q (List.mem_cons_of_mem p hq))

/-- A tunable knob whose name is absent from the blob makes the knob-view
loop fail. -/
theorem buildParams_absent_none (config : Blob) (b : Bool) :
    ∀ (cat : List KnobCatalog) (acc : List (String × Val)) (p0 : KnobCatalog),
    p0 ∈ cat → p0.tunable = true → config.lookup p0.name = none →
    buildParams config b cat acc = none
  | [], _, p0, h0, _, _ => absurd h0 (List.not_mem_nil p0)
  | p :: ps, acc, p0, h0, h0t, h0n => by
    rcases List.mem_cons.1 h0 with rfl | h0'
    · simp [buildParams, h0t, h0n]
    · by_cases hp : p.tunable = true
      · rcases hlook : config.lookup p.name with _ | v
        · simp [buildParams, hp, hlook]
        · simp only [buildParams, hp, if_true, hlook]
          exact buildParams_absent_none config b ps _ p0 h0' h0t h0n
      · have hbp : p.tunable = false := by simpa using hp
        by_cases hb : b = true
        · subst hb
          simp only [buildParams, hbp, Bool.false_eq_true, if_false, if_true]
          exact buildParams_absent_none config true ps _ p0 h0' h0t h0n
        · have hbf : b = false := by simpa using hb
          subst hbf
          simp only [buildParams, hbp, Bool.false_eq_true, if_false]
          exact buildParams_absent_none config false ps acc p0 h0' h0t h0n

/-- When every counter metric name is present in the blob, the metrics-view
loop never raises `KeyError` (it may still raise the conversion or division
errors). -/
theorem buildNormMetrics_no_keyError (config : Blob) (et : Int) (b : Bool) :
    ∀ (cat : List MetricCatalog) (acc : List (String × Val)),
    (∀ m ∈ cat, m.metric_type = MetricType.COUNTER →
      (config.lookup m.name).isSome) →
    isKeyError (buildNormMetrics config et b cat acc) = false
  | [], acc, _ => by simp [buildNormMetrics, isKeyError]
  | m :: ms, acc, h => by
    by_cases hm : m.metric_type = MetricType.COUNTER
    · rcases Option.isSome_iff_exists.1
        (h m (List.mem_cons_self m ms) hm) with ⟨v, hv⟩
      rcases hfv : pyFloat v with _ | q
      · simp [buildNormMetrics, hm, hv, hfv, isKeyError]
      · by_cases het : et = 0
        · simp [buildNormMetrics, hm, hv, hfv, het, isKeyError]
        · simp only [buildNormMetrics, hm, if_true, hv, hfv, het, ite_false]
          exact buildNormMetrics_no_keyError config et b ms _
            (fun x hx => h x (List.mem_cons_of_mem m hx))
    · by_cases hb : b = true
      · subst hb
        simp only [buildNormMetrics, hm, if_false, if_true]
        exact buildNormMetrics_no_keyError config et true ms _
          (fun x hx => h x (List.mem_cons_of_mem m hx))
      · have hbf : b = false := by simpa using hb
        subst hbf
        simp only [buildNormMetrics, hm, if_false, Bool.false_eq_true]
        exact buildNormMetrics_no_keyError config et false ms acc
          (fun x hx => h x (List.mem_cons_of_mem m hx))

/-- When the execution time is nonzero and every present counter value is
numeric, an absent counter metric name makes the metrics-view loop raise
`KeyError`. -/
theorem buildNormMetrics_absent_keyError (config : Blob) (et : Int) (b : Bool)
    (het : et ≠ 0) :
    ∀ (cat : List MetricCatalog) (acc : List (String × Val))
      (m0 : MetricCatalog),
    m0 ∈ cat → m0.metric_type = MetricType.COUNTER →
    config.lookup m0.name = none →
    (∀ m ∈ cat, m.metric_type = MetricType.COUNTER →
      ∀ v, config.lookup m.name = some v → (pyFloat v).isSome) →
    isKeyError (buildNormMetrics config et b cat acc) = true
  | [], _, m0, h0, _, _, _ => absurd h0 (List.not_mem_nil m0)
  | m :: ms, acc, m0, h0, h0c, h0n, hnum => by
    by_cases hm : m.metric_type = MetricType.COUNTER
    · rcases hlook : config.lookup m.name with _ | v
      · simp [buildNormMetrics, hm, hlook, isKeyError]
      · rcases Option.isSome_iff_exists.1
          (hnum m (List.mem_cons_self m ms) hm v hlook) with ⟨q, hq⟩
        simp only [buildNormMetrics, hm, if_true, hlook, hq, het, ite_false]
        have h0' : m0 ∈ ms := by
          rcases List.mem_cons.1 h0 with rfl | h0'
          · rw [hlook] at h0n
            cases h0n
          · exact h0'
        exact buildNormMetrics_absent_keyError config et b het ms _ m0 h0'
          h0c h0n (fun x hx => hnum x (List.mem_cons_of_mem m hx))
    · have h0' : m0 ∈ ms := by
        rcases List.mem_cons.1 h0 with rfl | h0'
        · exact absurd h0c hm
        · exact h0'
      by_cases hb : b = true
      · subst hb
        simp only [buildNormMetrics, hm, if_false, if_true]
        exact buildNormMetrics_absent_keyError config et true het ms _ m0 h0'
          h0c h0n (fun x hx => hnum x (List.mem_cons_of_mem m hx))
      · have hbf : b = false := by simpa using hb
        subst hbf
        simp only [buildNormMetrics, hm, if_false, Bool.false_eq_true]
        exact buildNormMetrics_absent_keyError config et false het ms acc m0
          h0' h0c h0n (fun x hx => hnum x (List.mem_cons_of_mem m hx))

/-- With a nonzero execution time the metrics-view loop never raises
`ZeroDivisionError`. -/
theorem buildNormMetrics_no_zeroDiv (config : Blob) (et : Int) (b : Bool)
    (het : et ≠ 0) :
    ∀ (cat : List MetricCatalog) (acc : List (String × Val)),
    buildNormMetrics config et b cat acc ≠
      Except.error PyError.zeroDivisionError
  | [], acc => by simp [buildNormMetrics]
  | m :: ms, acc => by
    by_cases hm : m.metric_type = MetricType.COUNTER
    · rcases hlook : config.lookup m.name with _ | v
      · simp [buildNormMetrics, hm, hlook]
      · rcases hfv : pyFloat v with _ | q
        · simp [buildNormMetrics, hm, hlook, hfv]
        · simp only [buildNormMetrics, hm, if_true, hlook, hfv, het,
            ite_false]
          exact buildNormMetrics_no_zeroDiv config et b het ms _
    · by_cases hb : b = true
      · subst hb
        simp only [buildNormMetrics, hm, if_false, if_true]
        exact buildNormMetrics_no_zeroDiv config et true het ms _
      · have hbf : b = false := by simpa using hb
        subst hbf
        simp only [buildNormMetrics, hm, if_false, Bool.false_eq_true]
        exact buildNormMetrics_no_zeroDiv config et false het ms acc

/-! ### Claim theorems: partiality and the division guard -/

/-- A counter metric of dbms 1 whose name the zero-time record's blob lacks. -/
def metricC : MetricCatalog := ⟨1, "mc0", VarType.INTEGER, MetricType.COUNTER⟩

/-- A `DBMSMetrics` record with execution time 0 whose blob stores a value
for `metricA` but none for `metricC`. -/
def metricsZero : DBMSMetrics := ⟨3, 1, 1, 0, [("ma", Val.num 1)]⟩

/-- C9 counterexample: a counter metric name (`mc0`) is absent from the blob,
yet the call fails with `ZeroDivisionError`, not with a key-lookup error: the
division error on an earlier counter preempts the `KeyError`. -/
theorem key_lookup_error_preempted :
    metricC ∈ [metricA, metricC] ∧
    metricC.metric_type = MetricType.COUNTER ∧
    metricsZero.configuration.lookup metricC.name = none ∧
    metricsZero.get_normalized_configuration [metricA, metricC] false =
      Except.error PyError.zeroDivisionError ∧
    isKeyError
      (metricsZero.get_normalized_configuration [metricA, metricC] false) =
      false := by
  decide

/-- C9 (amended): `get_tuning_configuration` fails exactly by key lookup —
it returns `None` when some tunable knob name of the record's dbms is absent
from the blob, and succeeds when every such name is present.
`get_normalized_configuration` raises no `KeyError` when every counter metric
name is present; when some counter name is absent it raises `KeyError`
provided the execution time is nonzero and every present counter value is
numeric (otherwise a division or conversion error can preempt the key
lookup). -/
theorem view_helpers_key_lookup_partiality :
    (∀ (self : DBConf) (kc : List KnobCatalog) (b : Bool),
      (∃ p ∈ kc.filter (fun p => p.dbms = self.dbms),
        p.tunable = true ∧ self.configuration.lookup p.name = none) →
      self.get_tuning_configuration kc b = none) ∧
    (∀ (self : DBConf) (kc : List KnobCatalog) (b : Bool),
      (∀ p ∈ kc.filter (fun p => p.dbms = self.dbms),
        p.tunable = true → (self.configuration.lookup p.name).isSome) →
      (self.get_tuning_configuration kc b).isSome) ∧
    (∀ (self : DBMSMetrics) (mc : List MetricCatalog) (b : Bool),
      (∀ m ∈ mc.filter (fun m => m.dbms = self.dbms),
        m.metric_type = MetricType.COUNTER →
          (self.configuration.lookup m.name).isSome) →
      isKeyError (self.get_normalized_configuration mc b) = false) ∧
    (∀ (self : DBMSMetrics) (mc : List MetricCatalog) (b : Bool),
      self.execution_time ≠ 0 →
      (∀ m ∈ mc.filter (fun m => m.dbms = self.dbms),
        m.metric_type = MetricType.COUNTER →
          ∀ v, self.configuration.lookup m.name = some v →
            (pyFloat v).isSome) →
      (∃ m ∈ mc.filter (fun m => m.dbms = self.dbms),
        m.metric_type = MetricType.COUNTER ∧
          self.configuration.lookup m.name = none) →
      isKeyError (self.get_normalized_configuration mc b) = true) := by
  refine ⟨?_, ?_, ?_, ?_⟩
  · rintro self kc b ⟨p, hp, hpt, hpn⟩
    exact buildParams_absent_none self.configuration b _ [] p hp hpt hpn
  · intro self kc b h
    exact buildParams_isSome self.configuration b _ [] h
  · intro self mc b h
    exact buildNormMetrics_no_keyError self.configuration self.execution_time
      b _ [] h
  · rintro self mc b het hnum ⟨m, hm, hmc, hmn⟩
    exact buildNormMetrics_absent_keyError self.configuration
      self.execution_time b het _ [] m hm hmc hmn hnum

/-- A `DBConf` of dbms 1 with an empty blob: `knobA`'s name is absent. -/
def confMissing : DBConf := ⟨2, 1, 1, []⟩

/-- A `DBMSMetrics` record of dbms 1 with nonzero execution time and an empty
blob: `metricA`'s name is absent. -/
def metricsMissing : DBMSMetrics := ⟨4, 1, 1, 2, []⟩

/-- C9 instantiated: the absent tunable name makes the knob view return
`None`, and the absent counter name makes the metrics view raise `KeyError`. -/
theorem view_helpers_key_lookup_partiality_inst :
    confMissing.get_tuning_configuration [knobA] false = none ∧
    isKeyError
      (metricsMissing.get_normalized_configuration [metricA] false) = true :=
  ⟨view_helpers_key_lookup_partiality.1 confMissing [knobA] false (by decide),
    view_helpers_key_lookup_partiality.2.2.2 metricsMissing [metricA] false
      (by decide) (by decide) (by decide)⟩

/-- C10: the division in the counter branch carries no guard, but under the
invariant `clean_fields` enforces (positive execution time) it is
well-defined: the call never raises `ZeroDivisionError`. A record with
execution time 0 that bypassed validation reaches the division error. -/
theorem normalization_division_guard :
    (∀ (self : DBMSMetrics) (mc : List MetricCatalog) (b : Bool),
      0 < self.execution_time →
      self.get_normalized_configuration mc b ≠
        Except.error PyError.zeroDivisionError) ∧
    metricsZero.execution_time = 0 ∧
    raised metricsZero.clean_fields = true ∧
    metricsZero.get_normalized_configuration [metricA, metricC] false =
      Except.error PyError.zeroDivisionError := by
  refine ⟨?_, rfl, rfl, by decide⟩
  intro self mc b h
  exact buildNormMetrics_no_zeroDiv self.configuration self.execution_time b
    (by omega) _ []

/-- C10 instantiated: a record with positive execution time never reaches the
division error. -/
theorem normalization_division_guard_inst :
    metrics1.get_normalized_configuration [metricA, metricB] false ≠
      Except.error PyError.zeroDivisionError :=
  normalization_division_guard.1 metrics1 [metricA, metricB] false (by decide)

end OtterTune
